import Mathlib

/-!
Verification of the product-catalog CSV importer.

The Python sources (crud.py, utils.py, main.py) are shallowly embedded:
the in-memory progress tracker becomes explicit state passing over a
keyed store, the SQLAlchemy product table becomes a list of records in
insertion order, CSV rows become association lists of header/value
pairs, and the chunked import loop becomes a structural fold that also
records the sequence of progress writes.
-/

set_option maxHeartbeats 1000000


/-! ## Progress tracker (utils.py) -/

/-- Task status strings used by the tracker and the pipeline. -/
inductive Status where
  | pending
  | started
  | parsing
  | importing
  | completed
  | failed
deriving DecidableEq

/-- One snapshot stored in `_progress_store` (the `updated_at` wall-clock
field is omitted: no claim mentions it). -/
structure Snapshot where
  task_id : String
  progress : ℚ
  status : Status
  message : String
deriving DecidableEq

/-- The process-wide keyed store `_progress_store : Dict[str, Dict]`. -/
def ProgressStore := String → Option Snapshot

/-- `utils.set_progress`: whole-snapshot replacement for one key. -/
def set_progress (st : ProgressStore) (task_id : String) (progress : ℚ)
    (status : Status) (message : String) : ProgressStore :=
  fun k => if k = task_id then some ⟨task_id, progress, status, message⟩ else st k

/-- `utils.get_progress`: read one key, synthesizing the default
`pending` snapshot for an unknown task.  Modelled as a state
transformer returning the (unchanged) store alongside the snapshot. -/
def get_progress (st : ProgressStore) (task_id : String) : Snapshot × ProgressStore :=
  (match st task_id with
   | none => ⟨task_id, 0, Status.pending, ""⟩
   | some d => d, st)

/-- Body of the `GET /progress/task_id` reply (schemas.ProgressOut). -/
structure ProgressOut where
  task_id : String
  status : Status
  progress : ℚ
  message : String
deriving DecidableEq

/-- The `GET /progress/task_id` endpoint in main.py: always replies 200
with the four fields copied from the tracker snapshot. -/
def progress_endpoint (st : ProgressStore) (task_id : String) : ℕ × ProgressOut :=
  let data := (get_progress st task_id).1
  (200, ⟨data.task_id, data.status, data.progress, data.message⟩)

/-! ## Product catalog and upsert engine (crud.py) -/

/-- One row of the `products` table (id and the two timestamps are
omitted: no claim depends on them; `price` is an opaque string). -/
structure Product where
  sku : String
  name : Option String
  description : Option String
  price : Option String
  active : Bool
deriving DecidableEq

/-- The catalog store, in insertion (id) order. -/
abbrev Store := List Product

/-- Python's `str.lower()`, as a structurally computable map over the
character data (the ASCII range is all the sources rely on). -/
def pyLower (s : String) : String := ⟨s.data.map Char.toLower⟩

/-- The whitespace characters stripped by Python's `str.strip()`. -/
def pySpace : List Char := [' ', '\t', '\n', '\r', Char.ofNat 11, Char.ofNat 12]

/-- Python's `str.strip()`: drop surrounding whitespace. -/
def pyStrip (s : String) : String :=
  ⟨((s.data.dropWhile (fun c => c ∈ pySpace)).reverse.dropWhile
      (fun c => c ∈ pySpace)).reverse⟩

/-- Python's `str.endswith(suffix)`. -/
def pyEndsWith (s suffix : String) : Bool :=
  decide (s.data.reverse.take suffix.data.length = suffix.data.reverse)

/-- `crud.get_product_by_sku`: guard on an empty query, then first
record whose lowercased sku equals the lowercase of the query. -/
def get_product_by_sku (db : Store) (sku : String) : Option Product :=
  if sku = "" then none
  else List.find? (fun p => pyLower p.sku = pyLower sku) db

/-- A CSV row as produced by `csv.DictReader`: header/value pairs. -/
abbrev Row := List (String × String)

/-- `row.get(k)` on a dict row. -/
def rowGet (r : Row) (k : String) : Option String :=
  (List.find? (fun kv => kv.1 = k) r).map (fun kv => kv.2)

/-- The Python truthiness chain `a or b or ... or None` over string
values: the first value that is present and non-empty, else `None`. -/
def firstVal : List (Option String) → Option String
  | [] => none
  | none :: rest => firstVal rest
  | some s :: rest => if s = "" then firstVal rest else some s

/-- `str(active_raw).strip().lower() in ("0", "false", "no", "n")`:
absent stays unset, a false-token maps to false, anything else to
true. -/
def parseActive : Option String → Option Bool
  | none => none
  | some s =>
    if pyLower (pyStrip s) ∈ (["0", "false", "no", "n"] : List String)
    then some false else some true

/-- Resolution of the `active` column of a row, per crud.py lines 48-54. -/
def activeOfRow (r : Row) : Option Bool :=
  parseActive (firstVal [rowGet r "active", rowGet r "Active"])

/-- The normalized upsert command produced from a CSV row (the field
extraction of `create_or_update_by_sku`, lines 40-54). -/
structure Command where
  sku : String
  name : Option String
  description : Option String
  price : Option String
  active : Option Bool
deriving DecidableEq

/-- Row normalization: resolve the SKU header spellings in order and
fail when none is present or the value is empty, then extract the
optional fields, blank and absent both mapping to `none`. -/
def normalizeRow (row : Row) : Except String Command :=
  match firstVal [rowGet row "sku", rowGet row "SKU", rowGet row "Sku"] with
  | none => Except.error "SKU required"
  | some sku =>
    Except.ok
      { sku := sku
        name := firstVal [rowGet row "name", rowGet row "Name"]
        description := firstVal [rowGet row "description", rowGet row "Description"]
        price := firstVal [rowGet row "price", rowGet row "Price"]
        active := activeOfRow row }

/-- The partial update applied to the found record (crud.py lines
57-65): each field present in the command overwrites, each absent field
is left untouched; the stored sku is never assigned. -/
def applyCommand (p : Product) (c : Command) : Product :=
  { sku := p.sku
    name := match c.name with | some v => some v | none => p.name
    description := match c.description with | some v => some v | none => p.description
    price := match c.price with | some v => some v | none => p.price
    active := match c.active with | some b => b | none => p.active }

/-- The fresh record built on the create path (crud.py lines 70-76). -/
def productOfCommand (c : Command) : Product :=
  { sku := c.sku
    name := c.name
    description := c.description
    price := c.price
    active := c.active.getD true }

/-- In-place mutation of the first record matching the lowercased sku,
mirroring SQLAlchemy mutating the object returned by `first()`. -/
def updateBySku (db : Store) (sku : String) (f : Product → Product) : Store :=
  match db with
  | [] => []
  | p :: rest =>
    if pyLower p.sku = pyLower sku then f p :: rest
    else p :: updateBySku rest sku f

/-- The upsert proper, after normalization (crud.py lines 56-80). -/
def upsertCommand (db : Store) (c : Command) : Product × Store :=
  match get_product_by_sku db c.sku with
  | some existing =>
    (applyCommand existing c, updateBySku db c.sku (fun p => applyCommand p c))
  | none =>
    let newP := productOfCommand c
    (newP, db ++ [newP])

/-- `crud.create_or_update_by_sku`: normalize the row, then upsert. -/
def create_or_update_by_sku (db : Store) (row : Row) : Except String (Product × Store) :=
  match normalizeRow row with
  | Except.error e => Except.error e
  | Except.ok c => Except.ok (upsertCommand db c)

/-- `crud.create_product` (used by POST /products after its existence
check): append a fresh record, `active` defaulting to true. -/
def create_product (db : Store) (c : Command) : Store :=
  db ++ [productOfCommand c]

/-- The case-insensitive uniqueness invariant: the lowercased skus of
the store are pairwise distinct. -/
def SkuUnique (db : Store) : Prop :=
  List.Nodup (List.map (fun p => pyLower p.sku) db)

instance : DecidablePred SkuUnique := fun db =>
  inferInstanceAs (Decidable (List.Nodup _))

/-! ## Batch import pipeline (main.py upload_csv) -/

/-- The fixed batch size (`batch_size = 1000  # tuneable`). -/
def batch_size : ℕ := 1000

/-- One row applied to the db inside a batch flush: a failing row
(normalization or persistence error) is skipped and the db is left as
it was (`except Exception: continue`). -/
def applyRow (db : Store) (r : Row) : Store :=
  match create_or_update_by_sku db r with
  | Except.ok pr => pr.2
  | Except.error _ => db

/-- Flushing one batch: upsert every row in file order, skipping
failing rows. -/
def processBatch (db : Store) (batch : List Row) : Store :=
  batch.foldl applyRow db

/-- `progress = (processed / total * 100) if total else 0.0`
(the full-batch flush, main.py line 83). -/
def progressOfFull (total processed : ℕ) : ℚ :=
  if total ≠ 0 then (processed : ℚ) / (total : ℚ) * 100 else 0

/-- `progress = (processed / total * 100) if total else 100.0`
(the final partial flush, main.py line 97). -/
def progressOfFinalFlush (total processed : ℕ) : ℚ :=
  if total ≠ 0 then (processed : ℚ) / (total : ℚ) * 100 else 100

/-- The loop state of the streaming parse: the accumulating batch is
kept in reverse along with its length, flushed batches and progress
writes are collected most-recent-first. -/
structure LoopState where
  db : Store
  batchRev : List Row
  batchLen : ℕ
  processed : ℕ
  flushesRev : List (List Row)
  writesRev : List Snapshot

/-- The importing-progress snapshot written after a flush. -/
def importingSnap (tid : String) (prog : ℚ) (processed : ℕ) : Snapshot :=
  ⟨tid, prog, Status.importing, "Processed " ++ toString processed ++ " rows"⟩

/-- One iteration of `for row in reader` (main.py lines 65-84): append
the row to the batch; once the batch reaches `batch_size`, process it
in file order, count every row of it as processed, and write an
importing progress snapshot. -/
def stepRow (total : ℕ) (tid : String) (s : LoopState) (row : Row) : LoopState :=
  let batchRev := row :: s.batchRev
  let len := s.batchLen + 1
  if batch_size ≤ len then
    let batch := batchRev.reverse
    let processed := s.processed + len
    { db := processBatch s.db batch
      batchRev := []
      batchLen := 0
      processed := processed
      flushesRev := batch :: s.flushesRev
      writesRev :=
        importingSnap tid (progressOfFull total processed) processed :: s.writesRev }
  else
    { s with batchRev := batchRev, batchLen := len }

/-- The final partial flush (`if batch:` — main.py lines 86-98). -/
def flushLast (total : ℕ) (tid : String) (s : LoopState) : LoopState :=
  if s.batchLen ≠ 0 then
    let batch := s.batchRev.reverse
    let processed := s.processed + s.batchLen
    { db := processBatch s.db batch
      batchRev := []
      batchLen := 0
      processed := processed
      flushesRev := batch :: s.flushesRev
      writesRev :=
        importingSnap tid (progressOfFinalFlush total processed) processed :: s.writesRev }
  else s

/-- Everything `upload_csv` produces past the extension check: the
final catalog, the processed count, the flushed batches in file order,
the ordered sequence of progress snapshots written to the tracker, and
the HTTP status of the reply.  `countResult` is the row pre-count
(`none` when the counting attempt raised and fell back to `total = 0`). -/
structure ImportResult where
  db : Store
  processed : ℕ
  flushes : List (List Row)
  trace : List Snapshot
  response : ℕ

/-- An exception escaping to the top-level `try` of `upload_csv`
(main.py lines 49-103): either opening the stream raised — before the
parsing write — or the pipeline died mid-run (a csv error while
iterating the reader, a session/close failure outside the per-row
`except`), after `k` rows had been consumed; the handler turns both
into a `failed` write with progress 0 and a 500. -/
inductive PipelineErr where
  | atOpen (e : String)
  | midLoop (k : ℕ) (e : String)

/-- The import pipeline of `upload_csv` (main.py lines 45-105).  On a
mid-loop failure the batches fully accumulated among the first `k`
rows have been flushed, with their importing writes, but the pending
partial batch is not (the exception escapes the `for` before
`if batch:`), and the `failed` write follows the importing writes. -/
def runImport (db0 : Store) (rows : List Row) (countResult : Option ℕ)
    (err : Option PipelineErr) (tid : String) : ImportResult :=
  let w0 : Snapshot := ⟨tid, 0, Status.started, "File uploaded, starting import"⟩
  match err with
  | some (PipelineErr.atOpen e) =>
    { db := db0, processed := 0, flushes := []
      trace := [w0, ⟨tid, 0, Status.failed, e⟩], response := 500 }
  | some (PipelineErr.midLoop k e) =>
    let total := match countResult with | some n => n | none => 0
    let w1 : Snapshot := ⟨tid, 1, Status.parsing, "Parsing CSV and preparing batches"⟩
    let s := (rows.take k).foldl (stepRow total tid) ⟨db0, [], 0, 0, [], []⟩
    { db := s.db
      processed := s.processed
      flushes := s.flushesRev.reverse
      trace := w0 :: w1 :: (s.writesRev.reverse ++ [⟨tid, 0, Status.failed, e⟩])
      response := 500 }
  | none =>
    let total := match countResult with | some n => n | none => 0
    let w1 : Snapshot := ⟨tid, 1, Status.parsing, "Parsing CSV and preparing batches"⟩
    let s := flushLast total tid
      (rows.foldl (stepRow total tid) ⟨db0, [], 0, 0, [], []⟩)
    { db := s.db
      processed := s.processed
      flushes := s.flushesRev.reverse
      trace := w0 :: w1 :: (s.writesRev.reverse ++
        [⟨tid, 100, Status.completed,
          "Import complete: " ++ toString s.processed ++ " rows"⟩])
      response := 202 }

/-- The batches the loop flushes, in file order: consecutive chunks of
`batch_size` rows, a final shorter chunk for the remainder. -/
def chunks (l : List Row) : List (List Row) :=
  if l = [] then []
  else if l.length ≤ batch_size then [l]
  else l.take batch_size :: chunks (l.drop batch_size)
termination_by l.length
decreasing_by
  simp only [List.length_drop, batch_size] at *
  omega

/-- The importing snapshots written for a list of flushed batches,
`acc` rows having been processed before them: a batch of exactly
`batch_size` rows comes from the in-loop flush, a shorter one from the
final partial flush. -/
def chunkWrites (total : ℕ) (tid : String) : ℕ → List (List Row) → List Snapshot
  | _, [] => []
  | acc, b :: bs =>
    importingSnap tid
      (if b.length = batch_size then progressOfFull total (acc + b.length)
       else progressOfFinalFlush total (acc + b.length))
      (acc + b.length)
      :: chunkWrites total tid (acc + b.length) bs

/-- Terminal statuses of an import task. -/
def isTerminal : Status → Bool
  | Status.completed => true
  | Status.failed => true
  | _ => false

/-- C4 as stated: over one task's lifetime the written progress values
are non-decreasing until a terminal write, the terminal write is
completed at 100 or failed at 0, and nothing is written after it. -/
def c4Stated (trace : List Snapshot) : Prop :=
  List.Chain' (· ≤ ·)
    ((trace.takeWhile (fun w => ! isTerminal w.status)).map (fun w => w.progress)) ∧
  (∀ w ∈ trace, isTerminal w.status = true →
    (w.status = Status.completed ∧ w.progress = 100) ∨
    (w.status = Status.failed ∧ w.progress = 0)) ∧
  (trace.dropWhile (fun w => ! isTerminal w.status)).length ≤ 1

/-! ## Upload endpoint (main.py upload_csv entry) and webhook test -/

/-- Observable outcome of one POST /upload request: HTTP status of the
reply, the progress store, the saved upload files, the catalog. -/
structure UploadResult where
  response : ℕ
  pstore : ProgressStore
  files : List String
  db : Store

/-- The `upload_csv` handler: the extension check
`file.filename.lower().endswith((".csv", ".txt"))` rejects with 400
before the file is saved and before any task exists; otherwise the file
is persisted, a task is created and the import pipeline runs, every
progress snapshot being written to the tracker. -/
def upload_csv (filename : String) (fileRows : List Row)
    (countResult : Option ℕ) (readErr : Option PipelineErr) (tid : String)
    (pstore : ProgressStore) (files : List String) (db : Store) : UploadResult :=
  if (pyEndsWith (pyLower filename) ".csv"
      || pyEndsWith (pyLower filename) ".txt") = false then
    ⟨400, pstore, files, db⟩
  else
    let files2 := files ++ [tid]
    let R := runImport db fileRows countResult readErr tid
    let pstore2 := R.trace.foldl
      (fun st w => set_progress st w.task_id w.progress w.status w.message) pstore
    ⟨R.response, pstore2, files2, R.db⟩

/-- C9/C8 supporting types: one row of the `webhooks` table. -/
structure Webhook where
  id : ℕ
  url : String
  event : String
  enabled : Bool
deriving DecidableEq

/-- `crud.get_webhook`: lookup by primary key. -/
def get_webhook (db : List Webhook) (webhook_id : ℕ) : Option Webhook :=
  List.find? (fun w => w.id = webhook_id) db

/-- Outcome of the single `requests.post` call: an HTTP response from
the target (any status code, including non-2xx, returns normally in
requests), or a raised exception (connection error, timeout, ...). -/
inductive DeliveryOutcome where
  | response (status_code : ℕ) (text : String)
  | netError (msg : String)
deriving DecidableEq

/-- Body of the reply of POST /webhooks/id/test. -/
inductive TestBody where
  | ok (status_code : ℕ) (text : String)
  | err (detail : String)
deriving DecidableEq

/-- The `timeout=10` passed to `requests.post`. -/
def requestTimeout : ℕ := 10

/-- Observable outcome of one POST /webhooks/id/test request,
including how many delivery attempts were made. -/
structure TestResult where
  http : ℕ
  body : TestBody
  attempts : ℕ
  timeoutUsed : Option ℕ
deriving DecidableEq

/-- The `test_webhook` handler (main.py lines 187-198): 404 when the
webhook is absent (no delivery attempted); otherwise exactly one
delivery attempt with the bounded timeout — an exception becomes a 500
carrying the error text, any HTTP response (2xx or not) becomes a 200
reporting the target's status code and text. -/
def test_webhook (db : List Webhook) (webhook_id : ℕ)
    (outcome : DeliveryOutcome) : TestResult :=
  match get_webhook db webhook_id with
  | none => ⟨404, TestBody.err "Webhook not found", 0, none⟩
  | some _ =>
    match outcome with
    | DeliveryOutcome.response code text =>
      ⟨200, TestBody.ok code text, 1, some requestTimeout⟩
    | DeliveryOutcome.netError msg =>
      ⟨500, TestBody.err msg, 1, some requestTimeout⟩

/-- C5: unknown task ids read as the synthetic default `pending`
snapshot with HTTP 200, never an error; known task ids read as the
last-written snapshot. -/
theorem C5_progress_get_default_or_last (st : ProgressStore) (task_id : String) :
    (st task_id = none →
      (get_progress st task_id).1 = ⟨task_id, 0, Status.pending, ""⟩ ∧
      progress_endpoint st task_id = (200, ⟨task_id, Status.pending, 0, ""⟩)) ∧
    (∀ snap, st task_id = some snap → (get_progress st task_id).1 = snap) ∧
    (∀ p s m,
      (get_progress (set_progress st task_id p s m) task_id).1 = ⟨task_id, p, s, m⟩) ∧
    (progress_endpoint st task_id).1 = 200 := by
  refine ⟨fun h => ?_, fun snap h => ?_, fun p s m => ?_, ?_⟩
  · constructor
    · simp [get_progress, h]
    · simp [progress_endpoint, get_progress, h]
  · simp [get_progress, h]
  · simp [get_progress, set_progress]
  · rfl

/-- Witness for C5 at the empty store. -/
theorem C5_progress_get_default_or_last_witness :
    ((fun _ => none : ProgressStore) "t" = none) ∧
    (get_progress (fun _ => none) "t").1 = ⟨"t", 0, Status.pending, ""⟩ := by
  refine ⟨rfl, ?_⟩
  exact (((C5_progress_get_default_or_last (fun _ => none) "t").1 rfl).1)

/-- C10: reading progress is side-effect free: `get` returns the store
unchanged, two consecutive gets of an unknown task both return the same
synthetic default, and a `set` after a `get` is exactly a `set` on the
original store. -/
theorem C10_progress_get_pure (st : ProgressStore) (task_id : String) :
    (get_progress st task_id).2 = st ∧
    (st task_id = none →
      (get_progress st task_id).1 = ⟨task_id, 0, Status.pending, ""⟩ ∧
      (get_progress ((get_progress st task_id).2) task_id).1
        = (get_progress st task_id).1) ∧
    (∀ tid' p s m,
      set_progress ((get_progress st task_id).2) tid' p s m
        = set_progress st tid' p s m) := by
  refine ⟨rfl, fun h => ⟨by simp [get_progress, h], rfl⟩, fun tid' p s m => rfl⟩

/-- Witness for C10 at the empty store. -/
theorem C10_progress_get_pure_witness :
    ((fun _ => none : ProgressStore) "t" = none) ∧
    (get_progress ((get_progress (fun _ => none) "t").2) "t").1
      = (get_progress ((fun _ => none : ProgressStore)) "t").1 := by
  refine ⟨rfl, ?_⟩
  exact ((C10_progress_get_pure (fun _ => none) "t").2.1 rfl).2

lemma firstVal_ne_empty : ∀ (l : List (Option String)) (s : String),
    firstVal l = some s → s ≠ "" := by
  intro l
  induction l with
  | nil => intro s h; exact absurd h (by simp [firstVal])
  | cons a rest ih =>
    intro s h
    match a with
    | none => exact ih s h
    | some v =>
      by_cases hv : v = ""
      · rw [firstVal, if_pos hv] at h
        exact ih s h
      · rw [firstVal, if_neg hv] at h
        cases h
        exact hv

lemma normalizeRow_ok_sku {row : Row} {c : Command}
    (h : normalizeRow row = Except.ok c) : c.sku ≠ "" := by
  unfold normalizeRow at h
  cases hf : firstVal [rowGet row "sku", rowGet row "SKU", rowGet row "Sku"] with
  | none => rw [hf] at h; cases h
  | some sku =>
    rw [hf] at h
    cases h
    exact firstVal_ne_empty _ _ hf

lemma applyCommand_sku (p : Product) (c : Command) :
    (applyCommand p c).sku = p.sku := rfl

lemma updateBySku_map_sku (db : Store) (s : String) (f : Product → Product)
    (hf : ∀ p, (f p).sku = p.sku) :
    (updateBySku db s f).map Product.sku = db.map Product.sku := by
  induction db with
  | nil => rfl
  | cons p rest ih =>
    unfold updateBySku
    by_cases hp : pyLower p.sku = pyLower s
    · simp [hp, hf]
    · simp [hp, ih]

lemma get_product_by_sku_none {db : Store} {sku : String}
    (h : get_product_by_sku db sku = none) (hs : sku ≠ "") :
    ∀ p ∈ db, ¬ pyLower p.sku = pyLower sku := by
  unfold get_product_by_sku at h
  rw [if_neg hs] at h
  intro p hp
  have := List.find?_eq_none.mp h p hp
  simpa using this

lemma upsertCommand_preserves {db : Store} {c : Command}
    (h : SkuUnique db) (hsku : c.sku ≠ "") :
    SkuUnique (upsertCommand db c).2 ∧
    ((upsertCommand db c).2.map Product.sku = db.map Product.sku ∨
     (upsertCommand db c).2.map Product.sku
       = db.map Product.sku ++ [(upsertCommand db c).1.sku]) := by
  unfold upsertCommand
  cases hfind : get_product_by_sku db c.sku with
  | some existing =>
    have hmap : (updateBySku db c.sku (fun p => applyCommand p c)).map Product.sku
        = db.map Product.sku :=
      updateBySku_map_sku db c.sku _ (fun p => applyCommand_sku p c)
    constructor
    · unfold SkuUnique
      have : (fun p => pyLower p.sku)
          = pyLower ∘ Product.sku := rfl
      rw [this, ← List.map_map, hmap, List.map_map]
      exact h
    · left; exact hmap
  | none =>
    have hnot := get_product_by_sku_none hfind hsku
    constructor
    · unfold SkuUnique
      simp only [List.map_append, List.map_cons, List.map_nil, productOfCommand]
      rw [List.nodup_append]
      refine ⟨h, List.nodup_singleton _, ?_⟩
      intro a ha hb
      simp only [List.mem_singleton] at hb
      subst hb
      simp only [List.mem_map] at ha
      obtain ⟨p, hp, hpa⟩ := ha
      exact hnot p hp hpa
    · right
      simp [productOfCommand]

/-- C1: at most one product per lowercased SKU, the invariant is
preserved by the upsert, the upsert never rewrites a stored sku (record
skus are unchanged on a match, and only a new sku is appended on a
create), and creating "ABC" then upserting sku "abc" updates the "ABC"
record in place instead of adding a second one. -/
theorem C1_sku_case_insensitive_unique :
    (∀ db : Store, SkuUnique db → ∀ s : String,
      (db.filter (fun p => pyLower p.sku = pyLower s)).length ≤ 1) ∧
    (∀ (db : Store) (row : Row) (p : Product) (db' : Store),
      SkuUnique db → create_or_update_by_sku db row = Except.ok (p, db') →
      SkuUnique db' ∧
      (db'.map Product.sku = db.map Product.sku ∨
       db'.map Product.sku = db.map Product.sku ++ [p.sku])) ∧
    (create_or_update_by_sku
        (create_product [] ⟨"ABC", none, none, none, some true⟩)
        [("sku", "abc"), ("name", "X")]
      = Except.ok (⟨"ABC", some "X", none, none, true⟩,
                   [⟨"ABC", some "X", none, none, true⟩])) := by
  refine ⟨?_, ?_, by rfl⟩
  · intro db h s
    induction db with
    | nil => simp
    | cons p rest ih =>
      unfold SkuUnique at h
      simp only [List.map_cons, List.nodup_cons] at h
      obtain ⟨hnotin, hrest⟩ := h
      by_cases hp : pyLower p.sku = pyLower s
      · have hempty : rest.filter (fun q => pyLower q.sku = pyLower s) = [] := by
          rw [List.filter_eq_nil_iff]
          intro q hq
          simp only [decide_eq_true_eq]
          intro habs
          exact hnotin (by
            rw [List.mem_map]
            exact ⟨q, hq, by rw [habs, ← hp]⟩)
        simp [List.filter_cons, hp, hempty]
      · have := ih hrest
        simp only [List.filter_cons, hp]
        simpa using this
  · intro db row p db' h heq
    unfold create_or_update_by_sku at heq
    cases hn : normalizeRow row with
    | error e => rw [hn] at heq; cases heq
    | ok c =>
      rw [hn] at heq
      have hsku := normalizeRow_ok_sku hn
      have h2 : upsertCommand db c = (p, db') := by injection heq
      have h3 := @upsertCommand_preserves db c h hsku
      rw [h2] at h3
      simpa using h3

/-- Witness for C1: the invariant hypothesis at the singleton "ABC"
store, propagated through the upsert of sku "abc". -/
theorem C1_sku_case_insensitive_unique_witness :
    SkuUnique [⟨"ABC", none, none, none, true⟩] ∧
    SkuUnique [⟨"ABC", some "X", none, none, true⟩] :=
  ⟨by decide,
   (C1_sku_case_insensitive_unique.2.1
      [⟨"ABC", none, none, none, true⟩] [("sku", "abc"), ("name", "X")]
      ⟨"ABC", some "X", none, none, true⟩ [⟨"ABC", some "X", none, none, true⟩]
      (by decide) (by rfl)).1⟩

/-- C2: on a case-insensitive SKU match the upsert applies exactly the
fields present (non-None) in the command, leaves every absent field's
existing value untouched, and returns the updated record; with no match
it creates a record whose unset optional fields are None and whose
active field defaults to true when unset. -/
theorem C2_upsert_partial_update (db : Store) (c : Command) :
    (∀ q, get_product_by_sku db c.sku = some q →
      (upsertCommand db c).1 = applyCommand q c ∧
      (upsertCommand db c).2 = updateBySku db c.sku (fun p => applyCommand p c) ∧
      (∀ p : Product,
        (c.name = none → (applyCommand p c).name = p.name) ∧
        (∀ v, c.name = some v → (applyCommand p c).name = some v) ∧
        (c.description = none → (applyCommand p c).description = p.description) ∧
        (∀ v, c.description = some v → (applyCommand p c).description = some v) ∧
        (c.price = none → (applyCommand p c).price = p.price) ∧
        (∀ v, c.price = some v → (applyCommand p c).price = some v) ∧
        (c.active = none → (applyCommand p c).active = p.active) ∧
        (∀ b, c.active = some b → (applyCommand p c).active = b) ∧
        (applyCommand p c).sku = p.sku)) ∧
    (get_product_by_sku db c.sku = none →
      (upsertCommand db c).1 = productOfCommand c ∧
      (upsertCommand db c).2 = db ++ [productOfCommand c] ∧
      (c.name = none → (productOfCommand c).name = none) ∧
      (c.description = none → (productOfCommand c).description = none) ∧
      (c.price = none → (productOfCommand c).price = none) ∧
      (c.active = none → (productOfCommand c).active = true)) := by
  constructor
  · intro q hq
    refine ⟨?_, ?_, ?_⟩
    · unfold upsertCommand; rw [hq]
    · unfold upsertCommand; rw [hq]
    · intro p
      refine ⟨?_, ?_, ?_, ?_, ?_, ?_, ?_, ?_, rfl⟩ <;>
        first
          | (intro h; simp [applyCommand, h])
          | (intro v h; simp [applyCommand, h])
  · intro hq
    refine ⟨?_, ?_, ?_, ?_, ?_, ?_⟩
    · unfold upsertCommand; rw [hq]
    · unfold upsertCommand; rw [hq]
    all_goals (intro h; simp [productOfCommand, h])

/-- Witness for C2: updating name while leaving active untouched on a
match, and creating with defaults on a miss. -/
theorem C2_upsert_partial_update_witness :
    (get_product_by_sku [⟨"A", some "old", none, none, false⟩] "a"
      = some ⟨"A", some "old", none, none, false⟩) ∧
    (upsertCommand [⟨"A", some "old", none, none, false⟩]
        ⟨"a", some "new", none, none, none⟩).1
      = applyCommand ⟨"A", some "old", none, none, false⟩
          ⟨"a", some "new", none, none, none⟩ :=
  ⟨by decide,
   ((C2_upsert_partial_update [⟨"A", some "old", none, none, false⟩]
      ⟨"a", some "new", none, none, none⟩).1
      ⟨"A", some "old", none, none, false⟩ (by decide)).1⟩

/-- C7: a raw active value whose stripped lowercase form is one of
"0", "false", "no", "n" parses to false, any other non-empty raw value
parses to true, an absent or blank column resolves to unset, an unset
active leaves an existing record's value unchanged, and a created
record defaults to active = true. -/
theorem C7_active_parsing (raw : String) (r : Row) (p : Product) (c : Command) :
    (pyLower (pyStrip raw) ∈ (["0", "false", "no", "n"] : List String) →
      parseActive (some raw) = some false) ∧
    (raw ≠ "" →
      pyLower (pyStrip raw) ∉ (["0", "false", "no", "n"] : List String) →
      parseActive (some raw) = some true) ∧
    parseActive none = none ∧
    ((rowGet r "active").getD "" = "" → (rowGet r "Active").getD "" = "" →
      activeOfRow r = none) ∧
    (c.active = none →
      (applyCommand p c).active = p.active ∧ (productOfCommand c).active = true) := by
  refine ⟨fun h => by simp [parseActive, h], fun _ h => by simp [parseActive, h],
    rfl, fun h1 h2 => ?_, fun h => ⟨by simp [applyCommand, h],
    by simp [productOfCommand, h]⟩⟩
  unfold activeOfRow firstVal
  cases ha : rowGet r "active" with
  | none =>
    cases hA : rowGet r "Active" with
    | none => rfl
    | some v =>
      rw [hA] at h2
      simp only [Option.getD_some] at h2
      subst h2
      simp [firstVal, parseActive]
  | some v =>
    rw [ha] at h1
    simp only [Option.getD_some] at h1
    subst h1
    simp only [if_pos rfl]
    cases hA : rowGet r "Active" with
    | none => rfl
    | some v =>
      rw [hA] at h2
      simp only [Option.getD_some] at h2
      subst h2
      simp [firstVal, parseActive]

/-- Witness for C7: " No " parses to false, "yes" parses to true, a
blank active column is unset. -/
theorem C7_active_parsing_witness :
    parseActive (some " No ") = some false ∧
    parseActive (some "yes") = some true ∧
    activeOfRow [("active", "")] = none :=
  ⟨(C7_active_parsing " No " [] ⟨"", none, none, none, true⟩
      ⟨"", none, none, none, none⟩).1 (by decide),
   ((C7_active_parsing "yes" [] ⟨"", none, none, none, true⟩
      ⟨"", none, none, none, none⟩).2.1 (by decide) (by decide)),
   ((C7_active_parsing "x" [("active", "")] ⟨"", none, none, none, true⟩
      ⟨"", none, none, none, none⟩).2.2.2.1 (by decide) (by decide))⟩

lemma foldl_stepRow_acc (total : ℕ) (tid : String) :
    ∀ (l : List Row) (s : LoopState),
      s.batchLen + l.length < batch_size →
      List.foldl (stepRow total tid) s l
        = { s with batchRev := l.reverse ++ s.batchRev,
                   batchLen := s.batchLen + l.length } := by
  intro l
  induction l with
  | nil => intro s h; simp
  | cons r rest ih =>
    intro s h
    rw [List.foldl_cons]
    have hlt : ¬ batch_size ≤ s.batchLen + 1 := by
      simp only [List.length_cons] at h; omega
    have hstep : stepRow total tid s r
        = { s with batchRev := r :: s.batchRev, batchLen := s.batchLen + 1 } := by
      unfold stepRow
      rw [if_neg hlt]
    rw [hstep, ih]
    · simp only [List.length_cons, List.reverse_cons, List.append_assoc,
        List.cons_append, List.nil_append]
      congr 1
      omega
    · simp only [List.length_cons] at h ⊢
      omega

lemma foldl_stepRow_fill (total : ℕ) (tid : String) :
    ∀ (l : List Row) (s : LoopState),
      l ≠ [] → s.batchLen + l.length = batch_size →
      List.foldl (stepRow total tid) s l
        = { db := processBatch s.db (s.batchRev.reverse ++ l)
            batchRev := []
            batchLen := 0
            processed := s.processed + batch_size
            flushesRev := (s.batchRev.reverse ++ l) :: s.flushesRev
            writesRev := importingSnap tid
                (progressOfFull total (s.processed + batch_size))
                (s.processed + batch_size) :: s.writesRev } := by
  intro l
  induction l with
  | nil => intro s h; exact absurd rfl h
  | cons r rest ih =>
    intro s _ hlen
    rw [List.foldl_cons]
    by_cases hrest : rest = []
    · subst hrest
      simp only [List.length_cons, List.length_nil, Nat.zero_add] at hlen
      have hge : batch_size ≤ s.batchLen + 1 := by omega
      have hstep : stepRow total tid s r
          = { db := processBatch s.db ((r :: s.batchRev).reverse)
              batchRev := []
              batchLen := 0
              processed := s.processed + (s.batchLen + 1)
              flushesRev := (r :: s.batchRev).reverse :: s.flushesRev
              writesRev := importingSnap tid
                  (progressOfFull total (s.processed + (s.batchLen + 1)))
                  (s.processed + (s.batchLen + 1)) :: s.writesRev } := by
        unfold stepRow
        rw [if_pos hge]
      rw [hstep, List.foldl_nil]
      simp only [List.reverse_cons, hlen]
    · have hlt : ¬ batch_size ≤ s.batchLen + 1 := by
        have : 1 ≤ rest.length := by
          cases rest with
          | nil => exact absurd rfl hrest
          | cons a t => simp
        simp only [List.length_cons] at hlen
        omega
      have hstep : stepRow total tid s r
          = { s with batchRev := r :: s.batchRev, batchLen := s.batchLen + 1 } := by
        unfold stepRow
        rw [if_neg hlt]
      rw [hstep, ih _ hrest (by simp only [List.length_cons] at hlen ⊢; omega)]
      simp only [List.reverse_cons, List.append_assoc, List.cons_append,
        List.nil_append]

lemma flushLast_of_ne (total : ℕ) (tid : String) (s : LoopState)
    (h : s.batchLen ≠ 0) :
    flushLast total tid s
      = { db := processBatch s.db s.batchRev.reverse
          batchRev := []
          batchLen := 0
          processed := s.processed + s.batchLen
          flushesRev := s.batchRev.reverse :: s.flushesRev
          writesRev := importingSnap tid
              (progressOfFinalFlush total (s.processed + s.batchLen))
              (s.processed + s.batchLen) :: s.writesRev } := by
  unfold flushLast
  rw [if_pos h]

lemma flushLast_of_zero (total : ℕ) (tid : String) (s : LoopState)
    (h : s.batchLen = 0) :
    flushLast total tid s = s := by
  unfold flushLast
  rw [if_neg (by simp [h])]

lemma run_loop_spec (total : ℕ) (tid : String) :
    ∀ (n : ℕ) (rows : List Row), rows.length = n →
    ∀ (db0 : Store) (p0 : ℕ) (f0 : List (List Row)) (w0 : List Snapshot),
      flushLast total tid
          (List.foldl (stepRow total tid) ⟨db0, [], 0, p0, f0, w0⟩ rows)
        = ⟨rows.foldl applyRow db0, [], 0, p0 + rows.length,
           (chunks rows).reverse ++ f0,
           (chunkWrites total tid p0 (chunks rows)).reverse ++ w0⟩ := by
  intro n
  induction n using Nat.strong_induction_on with
  | _ n ih =>
    intro rows hlen db0 p0 f0 w0
    have hbs : batch_size = 1000 := rfl
    by_cases hnil : rows = []
    · subst hnil
      rw [chunks]
      simp [flushLast, chunkWrites]
    · have hpos : 0 < rows.length := List.length_pos.mpr hnil
      by_cases hsmall : rows.length < batch_size
      · rw [foldl_stepRow_acc total tid rows _ (by simpa using hsmall)]
        rw [flushLast_of_ne total tid _ (by show 0 + rows.length ≠ 0; omega)]
        have hchunks : chunks rows = [rows] := by
          rw [chunks, if_neg hnil, if_pos (Nat.le_of_lt hsmall)]
        have hfull : ¬ rows.length = batch_size := by omega
        rw [hchunks]
        simp only [chunkWrites, List.reverse_cons, List.reverse_nil,
          List.nil_append, if_neg hfull, List.reverse_append, processBatch]
        simp
      · push_neg at hsmall
        have hsplit : rows = rows.take batch_size ++ rows.drop batch_size :=
          (List.take_append_drop batch_size rows).symm
        have htakelen : (rows.take batch_size).length = batch_size := by
          simp only [List.length_take]
          omega
        have htakene : rows.take batch_size ≠ [] := by
          intro habs
          have := congrArg List.length habs
          simp only [htakelen, List.length_nil] at this
          omega
        have hfoldsplit :
            List.foldl (stepRow total tid) ⟨db0, [], 0, p0, f0, w0⟩ rows
              = List.foldl (stepRow total tid)
                  (List.foldl (stepRow total tid) ⟨db0, [], 0, p0, f0, w0⟩
                    (rows.take batch_size))
                  (rows.drop batch_size) := by
          conv_lhs => rw [hsplit]
          rw [List.foldl_append]
        rw [hfoldsplit,
          foldl_stepRow_fill total tid (rows.take batch_size) _ htakene
            (by simp only [htakelen, Nat.zero_add])]
        simp only [List.reverse_nil, List.nil_append]
        have hdroplen : (rows.drop batch_size).length = n - batch_size := by
          simp [List.length_drop, hlen]
        have hlt : n - batch_size < n := by omega
        rw [ih (n - batch_size) hlt (rows.drop batch_size) hdroplen]
        have hchunks : chunks rows
            = rows.take batch_size :: chunks (rows.drop batch_size) := by
          rw [chunks, if_neg hnil]
          by_cases heq : rows.length ≤ batch_size
          · have hlen2 : rows.length = batch_size := by omega
            rw [if_pos heq]
            have htake : rows.take batch_size = rows :=
              List.take_of_length_le (by omega)
            have hdrop : rows.drop batch_size = [] :=
              List.drop_eq_nil_of_le (by omega)
            rw [htake, hdrop, chunks]
            simp
          · rw [if_neg heq]
        rw [hchunks]
        simp only [chunkWrites, htakelen, if_pos rfl, List.reverse_cons,
          LoopState.mk.injEq]
        refine ⟨?_, trivial, trivial, ?_, ?_, ?_⟩
        · rw [processBatch, ← List.foldl_append, List.take_append_drop]
        · rw [hdroplen, hlen]
          omega
        · simp [List.append_assoc]
        · simp [List.append_assoc]

lemma runImport_eq (db0 : Store) (rows : List Row) (countResult : Option ℕ)
    (tid : String) :
    runImport db0 rows countResult none tid
      = { db := rows.foldl applyRow db0
          processed := rows.length
          flushes := chunks rows
          trace := ⟨tid, 0, Status.started, "File uploaded, starting import"⟩ ::
            ⟨tid, 1, Status.parsing, "Parsing CSV and preparing batches"⟩ ::
            (chunkWrites (countResult.getD 0) tid 0 (chunks rows) ++
              [⟨tid, 100, Status.completed,
                "Import complete: " ++ toString rows.length ++ " rows"⟩])
          response := 202 } := by
  cases countResult with
  | none =>
    unfold runImport
    dsimp only
    rw [run_loop_spec 0 tid rows.length rows rfl db0 0 [] []]
    simp [importingSnap]
  | some t =>
    unfold runImport
    dsimp only
    rw [run_loop_spec t tid rows.length rows rfl db0 0 [] []]
    simp [importingSnap]

lemma replicate_row_ne_nil (n : ℕ) (hn : n ≠ 0) :
    List.replicate n ([] : Row) ≠ [] := by
  intro h
  have := congrArg List.length h
  rw [List.length_replicate] at this
  exact hn this

lemma chunks_replicate_2500 :
    chunks (List.replicate 2500 ([] : Row))
      = [List.replicate 1000 ([] : Row), List.replicate 1000 ([] : Row),
         List.replicate 500 ([] : Row)] := by
  have h2 : ¬ (List.replicate 2500 ([] : Row)).length ≤ batch_size := by
    rw [List.length_replicate]
    norm_num [batch_size]
  rw [chunks, if_neg (replicate_row_ne_nil 2500 (by norm_num)), if_neg h2]
  have ht1 : (List.replicate 2500 ([] : Row)).take batch_size
      = List.replicate 1000 [] := by
    rw [List.take_replicate]
    norm_num [batch_size]
  have hd1 : (List.replicate 2500 ([] : Row)).drop batch_size
      = List.replicate 1500 [] := by
    rw [List.drop_replicate]
    norm_num [batch_size]
  rw [ht1, hd1]
  have h4 : ¬ (List.replicate 1500 ([] : Row)).length ≤ batch_size := by
    rw [List.length_replicate]
    norm_num [batch_size]
  rw [chunks, if_neg (replicate_row_ne_nil 1500 (by norm_num)), if_neg h4]
  have ht2 : (List.replicate 1500 ([] : Row)).take batch_size
      = List.replicate 1000 [] := by
    rw [List.take_replicate]
    norm_num [batch_size]
  have hd2 : (List.replicate 1500 ([] : Row)).drop batch_size
      = List.replicate 500 [] := by
    rw [List.drop_replicate]
    norm_num [batch_size]
  rw [ht2, hd2]
  have h6 : (List.replicate 500 ([] : Row)).length ≤ batch_size := by
    rw [List.length_replicate]
    norm_num [batch_size]
  rw [chunks, if_neg (replicate_row_ne_nil 500 (by norm_num)), if_pos h6]

set_option maxRecDepth 40000 in
/-- C6: importing a 2500-data-row file with a successful pre-count
flushes exactly 3 batches of 1000, 1000 and 500 rows, and the progress
writes are started 0, parsing 1, importing 40, importing 80,
importing 100, then terminal completed 100, in that order. -/
theorem C6_batches_and_progress_2500 :
    ((runImport [] (List.replicate 2500 ([] : Row)) (some 2500) none "t").flushes.map
        List.length = [1000, 1000, 500]) ∧
    ((runImport [] (List.replicate 2500 ([] : Row)) (some 2500) none "t").trace.map
        (fun w => (w.progress, w.status))
      = [(0, Status.started), (1, Status.parsing), (40, Status.importing),
         (80, Status.importing), (100, Status.importing),
         (100, Status.completed)]) := by
  rw [runImport_eq, chunks_replicate_2500]
  constructor
  · simp only [List.map_cons, List.map_nil, List.length_replicate]
  · simp only [chunkWrites]
    simp only [List.length_replicate]
    norm_num [batch_size, progressOfFull, progressOfFinalFlush, importingSnap]

lemma trace_getLast (w0 w1 x : Snapshot) (l : List Snapshot) :
    (w0 :: w1 :: (l ++ [x])).getLast? = some x := by
  rw [show w0 :: w1 :: (l ++ [x]) = (w0 :: w1 :: l) ++ [x] by simp]
  exact List.getLast?_concat _

lemma applyRow_of_missing_sku {b : Row}
    (hb : firstVal [rowGet b "sku", rowGet b "SKU", rowGet b "Sku"] = none) :
    normalizeRow b = Except.error "SKU required" ∧ ∀ d : Store, applyRow d b = d := by
  have hnorm : normalizeRow b = Except.error "SKU required" := by
    unfold normalizeRow
    rw [hb]
  refine ⟨hnorm, fun d => ?_⟩
  unfold applyRow create_or_update_by_sku
  rw [hnorm]

/-- C3: a row in which no SKU header spelling resolves to a non-empty
value fails normalization with the "SKU required" error; the pipeline
skips it and continues: the final catalog equals the one produced by
the same import without that row, every row of the file is still
counted, and the import still terminates in completed with a 202. -/
theorem C3_missing_sku_row_skipped (db0 : Store) (tid : String)
    (c : Option ℕ) (pre post : List Row) (b : Row)
    (hb : firstVal [rowGet b "sku", rowGet b "SKU", rowGet b "Sku"] = none) :
    normalizeRow b = Except.error "SKU required" ∧
    (runImport db0 (pre ++ b :: post) c none tid).db
      = (runImport db0 (pre ++ post) c none tid).db ∧
    (runImport db0 (pre ++ b :: post) c none tid).processed
      = pre.length + post.length + 1 ∧
    (runImport db0 (pre ++ b :: post) c none tid).trace.getLast?
      = some ⟨tid, 100, Status.completed,
          "Import complete: "
            ++ toString (pre.length + post.length + 1) ++ " rows"⟩ ∧
    (runImport db0 (pre ++ b :: post) c none tid).response = 202 := by
  obtain ⟨hnorm, happly⟩ := applyRow_of_missing_sku hb
  have hlen : (pre ++ b :: post).length = pre.length + post.length + 1 := by
    simp only [List.length_append, List.length_cons]
    omega
  refine ⟨hnorm, ?_, ?_, ?_, ?_⟩
  · rw [runImport_eq, runImport_eq]
    show (pre ++ b :: post).foldl applyRow db0 = (pre ++ post).foldl applyRow db0
    rw [List.foldl_append, List.foldl_append, List.foldl_cons, happly]
  · rw [runImport_eq]
    exact hlen
  · rw [runImport_eq]
    simp only [hlen]
    exact trace_getLast _ _ _ _
  · rw [runImport_eq]

/-- Witness for C3 at the single empty row. -/
theorem C3_missing_sku_row_skipped_witness :
    (firstVal [rowGet ([] : Row) "sku", rowGet ([] : Row) "SKU",
        rowGet ([] : Row) "Sku"] = none) ∧
    normalizeRow ([] : Row) = Except.error "SKU required" ∧
    (runImport [] ([] ++ ([] : Row) :: []) none none "t").db
      = (runImport [] ([] ++ []) none none "t").db :=
  ⟨rfl,
   (C3_missing_sku_row_skipped [] "t" none [] [] [] rfl).1,
   (C3_missing_sku_row_skipped [] "t" none [] [] [] rfl).2.1⟩

lemma progressOfFull_mono (total : ℕ) {p q : ℕ} (h : p ≤ q) :
    progressOfFull total p ≤ progressOfFull total q := by
  unfold progressOfFull
  by_cases ht : total = 0
  · simp only [if_neg (show ¬ total ≠ 0 by omega), le_refl]
  · rw [if_pos (by omega), if_pos (by omega)]
    have htpos : (0 : ℚ) < total := by
      exact_mod_cast Nat.pos_of_ne_zero ht
    have hpq : (p : ℚ) ≤ q := by exact_mod_cast h
    gcongr

lemma progressOfFull_le_partial (total : ℕ) {p q : ℕ} (h : p ≤ q) :
    progressOfFull total p ≤ progressOfFinalFlush total q := by
  unfold progressOfFull progressOfFinalFlush
  by_cases ht : total = 0
  · rw [if_neg (by omega), if_neg (by omega)]
    norm_num
  · rw [if_pos (by omega), if_pos (by omega)]
    have htpos : (0 : ℚ) < total := by
      exact_mod_cast Nat.pos_of_ne_zero ht
    have hpq : (p : ℚ) ≤ q := by exact_mod_cast h
    gcongr

lemma progressOfFull_le_100 (total : ℕ) {p : ℕ} (h : p ≤ total ∨ total = 0) :
    progressOfFull total p ≤ 100 := by
  unfold progressOfFull
  by_cases ht : total = 0
  · rw [if_neg (by omega)]
    norm_num
  · rw [if_pos (by omega)]
    have htpos : (0 : ℚ) < total := by
      exact_mod_cast Nat.pos_of_ne_zero ht
    have hp : (p : ℚ) ≤ total := by
      rcases h with h | h
      · exact_mod_cast h
      · exact absurd h ht
    calc (p : ℚ) / total * 100 ≤ (total : ℚ) / total * 100 := by gcongr
    _ = 100 := by
      rw [div_self (ne_of_gt htpos)]
      norm_num

lemma progressOfFinalFlush_le_100 (total : ℕ) {p : ℕ} (h : p ≤ total ∨ total = 0) :
    progressOfFinalFlush total p ≤ 100 := by
  unfold progressOfFinalFlush
  by_cases ht : total = 0
  · rw [if_neg (by omega)]
  · rw [if_pos (by omega)]
    have h100 := progressOfFull_le_100 total h
    unfold progressOfFull at h100
    rwa [if_pos (by omega)] at h100

lemma chunkWrites_status (total : ℕ) (tid : String) :
    ∀ (cs : List (List Row)) (acc : ℕ) (w : Snapshot),
      w ∈ chunkWrites total tid acc cs → w.status = Status.importing := by
  intro cs
  induction cs with
  | nil => intro acc w h; cases h
  | cons b bs ih =>
    intro acc w h
    rw [chunkWrites] at h
    rcases List.mem_cons.mp h with h | h
    · subst h; rfl
    · exact ih _ _ h

lemma chunkWrites_chain (total : ℕ) (tid : String) :
    ∀ (n : ℕ) (l : List Row), l.length = n → ∀ (acc : ℕ) (lb : ℚ),
      lb ≤ progressOfFull total acc →
      (acc + l.length ≤ total ∨ total = 0) →
      List.Chain' (· ≤ ·)
        (lb :: ((chunkWrites total tid acc (chunks l)).map (fun w => w.progress)
          ++ [(100 : ℚ)])) := by
  intro n
  induction n using Nat.strong_induction_on with
  | _ n ih =>
    intro l hlen acc lb hlb hbound
    have hbs : batch_size = 1000 := rfl
    by_cases hnil : l = []
    · subst hnil
      rw [chunks]
      simp only [if_pos rfl, chunkWrites, List.map_nil, List.nil_append]
      simp only [List.chain'_cons, List.chain'_singleton, and_true]
      calc lb ≤ progressOfFull total acc := hlb
        _ ≤ 100 := progressOfFull_le_100 total (by
            simp only [List.length_nil] at hbound
            omega)
    · have hpos : 0 < l.length := List.length_pos.mpr hnil
      by_cases hsmall : l.length ≤ batch_size
      · have hchunks : chunks l = [l] := by
          rw [chunks, if_neg hnil, if_pos hsmall]
        rw [hchunks]
        simp only [chunkWrites, List.map_cons, List.map_nil, List.cons_append,
          List.nil_append]
        set v : ℚ := if l.length = batch_size
          then progressOfFull total (acc + l.length)
          else progressOfFinalFlush total (acc + l.length) with hv
        have hv_ge : progressOfFull total (acc + l.length) ≤ v := by
          rw [hv]
          by_cases hfull : l.length = batch_size
          · rw [if_pos hfull]
          · rw [if_neg hfull]
            exact progressOfFull_le_partial total (le_refl _)
        have hv_le : v ≤ 100 := by
          rw [hv]
          by_cases hfull : l.length = batch_size
          · rw [if_pos hfull]
            exact progressOfFull_le_100 total (by omega)
          · rw [if_neg hfull]
            exact progressOfFinalFlush_le_100 total (by omega)
        simp only [List.chain'_cons, List.chain'_singleton, and_true]
        refine ⟨?_, hv_le⟩
        calc lb ≤ progressOfFull total acc := hlb
          _ ≤ progressOfFull total (acc + l.length) :=
            progressOfFull_mono total (by omega)
          _ ≤ v := hv_ge
      · push_neg at hsmall
        have hchunks : chunks l = l.take batch_size :: chunks (l.drop batch_size) := by
          rw [chunks, if_neg hnil, if_neg (by omega)]
        have htakelen : (l.take batch_size).length = batch_size := by
          simp only [List.length_take]
          omega
        rw [hchunks]
        simp only [chunkWrites, htakelen, if_pos rfl, List.map_cons,
          List.cons_append]
        have hv1 : lb ≤ progressOfFull total (acc + batch_size) := by
          calc lb ≤ progressOfFull total acc := hlb
            _ ≤ progressOfFull total (acc + batch_size) :=
              progressOfFull_mono total (by omega)
        have hdroplen : (l.drop batch_size).length = n - batch_size := by
          simp [List.length_drop, hlen]
        have htail := ih (n - batch_size) (by omega) (l.drop batch_size) hdroplen
          (acc + batch_size) (progressOfFull total (acc + batch_size))
          (le_refl _)
          (by
            rw [hdroplen]
            rcases hbound with h | h
            · left; omega
            · right; exact h)
        rw [List.chain'_cons]
        refine ⟨by simpa [importingSnap] using hv1, ?_⟩
        simpa [importingSnap] using htail

lemma chunks_replicate_1000 :
    chunks (List.replicate 1000 ([] : Row)) = [List.replicate 1000 ([] : Row)] := by
  rw [chunks, if_neg (replicate_row_ne_nil 1000 (by norm_num)),
    if_pos (by rw [List.length_replicate]; norm_num [batch_size])]

/-- C4 counterexample: importing a 1000-row file whose row pre-count
failed (total falls back to 0) writes progresses 0 (started),
1 (parsing), 0 (importing fallback), 100 (completed) — the fallback
importing write of 0 after the parsing placeholder of 1 breaks the
claimed monotonicity before any terminal status. -/
theorem C4_stated_counterexample :
    ¬ c4Stated ((runImport [] (List.replicate 1000 ([] : Row)) none none "t").trace) := by
  rw [runImport_eq, chunks_replicate_1000]
  have hcw : chunkWrites ((none : Option ℕ).getD 0) "t" 0
        [List.replicate 1000 ([] : Row)]
      = [⟨"t", 0, Status.importing, "Processed " ++ toString 1000 ++ " rows"⟩] := by
    rw [chunkWrites, chunkWrites]
    simp only [List.length_replicate, importingSnap, Option.getD]
    norm_num [batch_size, progressOfFull]
  rw [hcw]
  intro h
  have h1 : List.Chain' (· ≤ ·) [(0 : ℚ), 1, 0] := h.1
  have h2 := (List.chain'_cons.mp (List.chain'_cons.mp h1).2).1
  norm_num at h2

lemma trace_dropLast (w0 w1 x : Snapshot) (l : List Snapshot) :
    (w0 :: w1 :: (l ++ [x])).dropLast = w0 :: w1 :: l := by
  rw [show w0 :: w1 :: (l ++ [x]) = (w0 :: w1 :: l) ++ [x] by simp,
    List.dropLast_concat]

lemma chunkWrites_chain_from (total : ℕ) (tid : String) :
    ∀ (n : ℕ) (l : List Row), l.length = n → ∀ (acc : ℕ) (lb : ℚ),
      lb ≤ progressOfFull total acc →
      List.Chain' (· ≤ ·)
        (lb :: ((chunkWrites total tid acc (chunks l)).map (fun w => w.progress))) := by
  intro n
  induction n using Nat.strong_induction_on with
  | _ n ih =>
    intro l hlen acc lb hlb
    have hbs : batch_size = 1000 := rfl
    by_cases hnil : l = []
    · subst hnil
      rw [chunks]
      simp only [if_pos rfl, chunkWrites, List.map_nil]
      exact List.chain'_singleton _
    · have hpos : 0 < l.length := List.length_pos.mpr hnil
      by_cases hsmall : l.length ≤ batch_size
      · have hchunks : chunks l = [l] := by
          rw [chunks, if_neg hnil, if_pos hsmall]
        rw [hchunks]
        simp only [chunkWrites, List.map_cons, List.map_nil]
        set v : ℚ := if l.length = batch_size
          then progressOfFull total (acc + l.length)
          else progressOfFinalFlush total (acc + l.length) with hv
        have hv_ge : progressOfFull total (acc + l.length) ≤ v := by
          rw [hv]
          by_cases hfull : l.length = batch_size
          · rw [if_pos hfull]
          · rw [if_neg hfull]
            exact progressOfFull_le_partial total (le_refl _)
        simp only [List.chain'_cons, List.chain'_singleton, and_true]
        calc lb ≤ progressOfFull total acc := hlb
          _ ≤ progressOfFull total (acc + l.length) :=
            progressOfFull_mono total (by omega)
          _ ≤ v := hv_ge
      · push_neg at hsmall
        have hchunks : chunks l = l.take batch_size :: chunks (l.drop batch_size) := by
          rw [chunks, if_neg hnil, if_neg (by omega)]
        have htakelen : (l.take batch_size).length = batch_size := by
          simp only [List.length_take]
          omega
        rw [hchunks]
        simp only [chunkWrites, htakelen, if_pos rfl, List.map_cons]
        have hv1 : lb ≤ progressOfFull total (acc + batch_size) := by
          calc lb ≤ progressOfFull total acc := hlb
            _ ≤ progressOfFull total (acc + batch_size) :=
              progressOfFull_mono total (by omega)
        have hdroplen : (l.drop batch_size).length = n - batch_size := by
          simp [List.length_drop, hlen]
        have htail := ih (n - batch_size) (by omega) (l.drop batch_size) hdroplen
          (acc + batch_size) (progressOfFull total (acc + batch_size)) (le_refl _)
        rw [List.chain'_cons]
        refine ⟨by simpa [importingSnap] using hv1, ?_⟩
        simpa [importingSnap] using htail

lemma foldl_stepRow_writes_inv (total : ℕ) (tid : String) :
    ∀ (rows : List Row) (s : LoopState),
      (∀ w ∈ s.writesRev, w.status = Status.importing) →
      List.Chain' (· ≥ ·) (s.writesRev.map (fun w => w.progress)) →
      (∀ w ∈ s.writesRev, w.progress ≤ progressOfFull total s.processed) →
      (∀ w ∈ (rows.foldl (stepRow total tid) s).writesRev,
        w.status = Status.importing) ∧
      List.Chain' (· ≥ ·)
        ((rows.foldl (stepRow total tid) s).writesRev.map (fun w => w.progress)) ∧
      (∀ w ∈ (rows.foldl (stepRow total tid) s).writesRev,
        w.progress ≤ progressOfFull total
          (rows.foldl (stepRow total tid) s).processed) := by
  intro rows
  induction rows with
  | nil => intro s h1 h2 h3; exact ⟨h1, h2, h3⟩
  | cons r rest ih =>
    intro s h1 h2 h3
    rw [List.foldl_cons]
    by_cases hflush : batch_size ≤ s.batchLen + 1
    · have hstep : stepRow total tid s r
          = { db := processBatch s.db ((r :: s.batchRev).reverse)
              batchRev := []
              batchLen := 0
              processed := s.processed + (s.batchLen + 1)
              flushesRev := (r :: s.batchRev).reverse :: s.flushesRev
              writesRev := importingSnap tid
                  (progressOfFull total (s.processed + (s.batchLen + 1)))
                  (s.processed + (s.batchLen + 1)) :: s.writesRev } := by
        unfold stepRow
        rw [if_pos hflush]
      rw [hstep]
      apply ih
      · intro w hw
        rcases List.mem_cons.mp hw with h | hw
        · rw [h]; rfl
        · exact h1 w hw
      · show List.Chain' (· ≥ ·)
          (progressOfFull total (s.processed + (s.batchLen + 1))
            :: s.writesRev.map (fun w => w.progress))
        rw [List.chain'_cons']
        refine ⟨?_, h2⟩
        intro b hb
        cases hws : s.writesRev with
        | nil => rw [hws] at hb; cases hb
        | cons w ws =>
          rw [hws] at hb
          simp only [List.map_cons, List.head?_cons, Option.mem_def,
            Option.some.injEq] at hb
          subst hb
          calc w.progress ≤ progressOfFull total s.processed :=
              h3 w (by rw [hws]; exact List.mem_cons_self w ws)
            _ ≤ progressOfFull total (s.processed + (s.batchLen + 1)) :=
              progressOfFull_mono total (by omega)
      · intro w hw
        rcases List.mem_cons.mp hw with h | hw
        · rw [h]
          exact le_refl _
        · calc w.progress ≤ progressOfFull total s.processed := h3 w hw
            _ ≤ progressOfFull total (s.processed + (s.batchLen + 1)) :=
              progressOfFull_mono total (by omega)
    · have hstep : stepRow total tid s r
          = { s with batchRev := r :: s.batchRev, batchLen := s.batchLen + 1 } := by
        unfold stepRow
        rw [if_neg hflush]
      rw [hstep]
      exact ih _ h1 h2 h3

lemma runImport_midLoop_trace (db0 : Store) (rows : List Row)
    (countResult : Option ℕ) (k : ℕ) (e : String) (tid : String) :
    (runImport db0 rows countResult (some (PipelineErr.midLoop k e)) tid).trace
      = ⟨tid, 0, Status.started, "File uploaded, starting import"⟩ ::
        ⟨tid, 1, Status.parsing, "Parsing CSV and preparing batches"⟩ ::
        (((rows.take k).foldl (stepRow (countResult.getD 0) tid)
            ⟨db0, [], 0, 0, [], []⟩).writesRev.reverse
          ++ [⟨tid, 0, Status.failed, e⟩]) := by
  cases countResult <;> rfl

/-- C4 amended: within one task the progress values of the importing
writes are non-decreasing up to the terminal status — the original
claim's whole-lifetime monotonicity fails because an importing value
may fall below the parsing placeholder of 1 — the last write is
terminal, completed at 100 or failed with its reset to 0, and no write
follows a terminal write; this covers every pipeline outcome: success,
a failure at stream open, and a failure mid-loop after any number of
flushes, with any pre-count result. -/
theorem C4_amended_progress_monotone (db0 : Store) (rows : List Row)
    (countResult : Option ℕ) (err : Option PipelineErr) (tid : String) :
    List.Chain' (· ≤ ·)
      (((runImport db0 rows countResult err tid).trace.filter
          (fun w => w.status == Status.importing)).map (fun w => w.progress)) ∧
    (∃ w, (runImport db0 rows countResult err tid).trace.getLast? = some w ∧
      ((w.status = Status.completed ∧ w.progress = 100) ∨
       (w.status = Status.failed ∧ w.progress = 0))) ∧
    (∀ w ∈ (runImport db0 rows countResult err tid).trace.dropLast,
      isTerminal w.status = false) := by
  cases err with
  | some pe =>
    cases pe with
    | atOpen e =>
      have htr : (runImport db0 rows countResult (some (PipelineErr.atOpen e)) tid).trace
          = [⟨tid, 0, Status.started, "File uploaded, starting import"⟩,
             ⟨tid, 0, Status.failed, e⟩] := rfl
      rw [htr]
      refine ⟨?_, ⟨⟨tid, 0, Status.failed, e⟩, rfl, Or.inr ⟨rfl, rfl⟩⟩, ?_⟩
      · show List.Chain' (· ≤ ·) ([] : List ℚ)
        exact List.chain'_nil
      · intro w hw
        have hw0 : w = ⟨tid, 0, Status.started, "File uploaded, starting import"⟩ := by
          simpa using hw
        rw [hw0]
        rfl
    | midLoop k e =>
      rw [runImport_midLoop_trace]
      obtain ⟨hst, hch, hbd⟩ := foldl_stepRow_writes_inv (countResult.getD 0) tid
        (rows.take k) ⟨db0, [], 0, 0, [], []⟩
        (fun w hw => absurd hw (List.not_mem_nil w))
        List.chain'_nil
        (fun w hw => absurd hw (List.not_mem_nil w))
      set t := (rows.take k).foldl (stepRow (countResult.getD 0) tid)
        ⟨db0, [], 0, 0, [], []⟩ with ht
      have hfilter : t.writesRev.reverse.filter
            (fun w => w.status == Status.importing)
          = t.writesRev.reverse := by
        rw [List.filter_eq_self]
        intro w hw
        rw [hst w (List.mem_reverse.mp hw)]
        rfl
      refine ⟨?_, ⟨_, trace_getLast _ _ _ _, Or.inr ⟨rfl, rfl⟩⟩, ?_⟩
      · simp only [List.filter_cons, List.filter_append, hfilter]
        simp only [beq_iff_eq, reduceCtorEq, if_false, List.filter_nil,
          List.append_nil]
        rw [List.map_reverse]
        rw [List.chain'_reverse]
        simpa [flip] using hch
      · rw [trace_dropLast]
        intro w hw
        rcases List.mem_cons.mp hw with h | hw
        · rw [h]; rfl
        rcases List.mem_cons.mp hw with h | hw
        · rw [h]; rfl
        · rw [hst w (List.mem_reverse.mp hw)]
          rfl
  | none =>
    rw [runImport_eq]
    have hstat := chunkWrites_status (countResult.getD 0) tid (chunks rows) 0
    have hfilter :
        (List.filter (fun w => w.status == Status.importing)
          (chunkWrites (countResult.getD 0) tid 0 (chunks rows)))
        = chunkWrites (countResult.getD 0) tid 0 (chunks rows) := by
      rw [List.filter_eq_self]
      intro w hw
      rw [hstat w hw]
      rfl
    refine ⟨?_, ?_, ?_⟩
    · simp only [List.filter_cons, List.filter_append, hfilter]
      norm_num [isTerminal]
      have hchain := chunkWrites_chain_from (countResult.getD 0) tid rows.length
        rows rfl 0 (progressOfFull (countResult.getD 0) 0) (le_refl _)
      have := hchain.tail
      simpa using this
    · exact ⟨_, trace_getLast _ _ _ _, Or.inl ⟨rfl, rfl⟩⟩
    · rw [trace_dropLast]
      intro w hw
      rcases List.mem_cons.mp hw with h | hw
      · rw [h]; rfl
      rcases List.mem_cons.mp hw with h | hw
      · rw [h]; rfl
      · rw [hstat w hw]
        rfl

/-- C8 counterexample: "data.txt" does not end in the CSV extension,
yet the upload is accepted — the handler replies 202, persists the
file and runs the import, instead of rejecting with 400. -/
theorem C8_counterexample_txt_accepted :
    pyEndsWith (pyLower "data.txt") ".csv" = false ∧
    (upload_csv "data.txt" [] (some 0) none "t"
        (fun _ => none) [] []).response = 202 ∧
    (upload_csv "data.txt" [] (some 0) none "t"
        (fun _ => none) [] []).files = ["t"] := by
  refine ⟨by decide, ?_, ?_⟩ <;> rfl

/-- C8 amended: the handler rejects with 400 — before persisting the
file, creating a task or touching any state — exactly those filenames
whose lowercase form ends in neither ".csv" nor ".txt"; accepted
uploads persist the file and reply 202 (or 500 when the pipeline
fails). -/
theorem C8_upload_extension_check (filename : String) (fileRows : List Row)
    (countResult : Option ℕ) (readErr : Option PipelineErr) (tid : String)
    (pstore : ProgressStore) (files : List String) (db : Store) :
    ((pyEndsWith (pyLower filename) ".csv"
        || pyEndsWith (pyLower filename) ".txt") = false →
      upload_csv filename fileRows countResult readErr tid pstore files db
        = ⟨400, pstore, files, db⟩) ∧
    ((pyEndsWith (pyLower filename) ".csv"
        || pyEndsWith (pyLower filename) ".txt") = true →
      (upload_csv filename fileRows countResult readErr tid pstore files db).files
        = files ++ [tid] ∧
      (readErr = none →
        (upload_csv filename fileRows countResult readErr tid pstore files db).response
          = 202) ∧
      (∀ e, readErr = some e →
        (upload_csv filename fileRows countResult readErr tid pstore files db).response
          = 500)) := by
  constructor
  · intro h
    unfold upload_csv
    rw [if_pos h]
  · intro h
    have hneg : ¬ ((pyEndsWith (pyLower filename) ".csv"
        || pyEndsWith (pyLower filename) ".txt") = false) := by
      rw [h]; simp
    unfold upload_csv
    rw [if_neg hneg]
    refine ⟨rfl, fun he => ?_, fun e he => ?_⟩
    · subst he
      rw [runImport_eq]
    · subst he
      cases e with
      | atOpen msg => rfl
      | midLoop k msg => rfl

/-- Witness for C8 amended: a ".pdf" upload is rejected with 400 and
leaves all state untouched; a ".csv" upload is accepted with 202. -/
theorem C8_upload_extension_check_witness :
    ((pyEndsWith (pyLower "report.pdf") ".csv"
        || pyEndsWith (pyLower "report.pdf") ".txt") = false) ∧
    (upload_csv "report.pdf" [] none none "t" (fun _ => none) [] []).response = 400 ∧
    ((pyEndsWith (pyLower "data.CSV") ".csv"
        || pyEndsWith (pyLower "data.CSV") ".txt") = true) ∧
    (upload_csv "data.CSV" [] none none "t" (fun _ => none) [] []).response = 202 :=
  ⟨by decide,
   by rw [(C8_upload_extension_check "report.pdf" [] none none "t"
      (fun _ => none) [] []).1 (by decide)],
   by decide,
   ((C8_upload_extension_check "data.CSV" [] none none "t"
      (fun _ => none) [] []).2 (by decide)).2.1 rfl⟩

/-- C9 counterexample: with an existing webhook whose target answers
503 (a non-2xx outcome), the endpoint replies 200 with the target's
status in the body — not the claimed 500. -/
theorem C9_counterexample_non2xx_is_200 :
    (test_webhook [⟨1, "http://x", "e", true⟩] 1
        (DeliveryOutcome.response 503 "oops")).http = 200 ∧
    ¬ (test_webhook [⟨1, "http://x", "e", true⟩] 1
        (DeliveryOutcome.response 503 "oops")).http = 500 ∧
    ¬ (200 ≤ 503 ∧ 503 < 300) ∧
    (test_webhook [⟨1, "http://x", "e", true⟩] 1
        (DeliveryOutcome.response 503 "oops")).body = TestBody.ok 503 "oops" := by
  refine ⟨rfl, by decide, by decide, rfl⟩

/-- C9 amended: 404 with no delivery attempt when the webhook is
absent; otherwise exactly one attempt with the bounded 10s timeout and
never a retry; a raised network error surfaces as a 500 carrying the
error text, while an HTTP response from the target — 2xx or not — is
reported back in a 200 body carrying the target's status code and
text; no outcome is silently swallowed. -/
theorem C9_webhook_test_surfaces_failures (db : List Webhook)
    (webhook_id : ℕ) (outcome : DeliveryOutcome) :
    (get_webhook db webhook_id = none →
      test_webhook db webhook_id outcome
        = ⟨404, TestBody.err "Webhook not found", 0, none⟩) ∧
    (∀ w, get_webhook db webhook_id = some w →
      (test_webhook db webhook_id outcome).attempts = 1 ∧
      (test_webhook db webhook_id outcome).timeoutUsed = some requestTimeout ∧
      (∀ m, outcome = DeliveryOutcome.netError m →
        test_webhook db webhook_id outcome
          = ⟨500, TestBody.err m, 1, some requestTimeout⟩) ∧
      (∀ code text, outcome = DeliveryOutcome.response code text →
        test_webhook db webhook_id outcome
          = ⟨200, TestBody.ok code text, 1, some requestTimeout⟩)) ∧
    (test_webhook db webhook_id outcome).attempts ≤ 1 := by
  refine ⟨fun h => ?_, fun w h => ?_, ?_⟩
  · unfold test_webhook
    rw [h]
  · unfold test_webhook
    rw [h]
    cases outcome with
    | response code text =>
      refine ⟨rfl, rfl, fun m hm => ?_, fun c t ht => ?_⟩
      · cases hm
      · cases ht; rfl
    | netError msg =>
      refine ⟨rfl, rfl, fun m hm => ?_, fun c t ht => ?_⟩
      · cases hm; rfl
      · cases ht
  · unfold test_webhook
    cases hw : get_webhook db webhook_id with
    | none => exact Nat.zero_le 1
    | some w =>
      cases outcome with
      | response code text => exact le_refl 1
      | netError msg => exact le_refl 1

/-- Witness for C9 amended: a missing webhook is a 404 with no
attempt, a network error on an existing webhook is a 500 with the
error text. -/
theorem C9_webhook_test_surfaces_failures_witness :
    (get_webhook [] 1 = none) ∧
    test_webhook [] 1 (DeliveryOutcome.netError "down")
      = ⟨404, TestBody.err "Webhook not found", 0, none⟩ ∧
    (get_webhook [⟨1, "http://x", "e", true⟩] 1 = some ⟨1, "http://x", "e", true⟩) ∧
    test_webhook [⟨1, "http://x", "e", true⟩] 1 (DeliveryOutcome.netError "down")
      = ⟨500, TestBody.err "down", 1, some requestTimeout⟩ :=
  ⟨rfl,
   (C9_webhook_test_surfaces_failures [] 1 (DeliveryOutcome.netError "down")).1 rfl,
   by decide,
   (((C9_webhook_test_surfaces_failures [⟨1, "http://x", "e", true⟩] 1
      (DeliveryOutcome.netError "down")).2.1 ⟨1, "http://x", "e", true⟩
      (by decide)).2.2.1 "down" rfl)⟩
